import Mathlib

/-
Verification of the bitbox02 firmware fragments:
  src/apps/btc/confirm_multisig.c  (apps_btc_confirm_multisig)
  src/workflow/restore_from_mnemonic.c  (workflow_restore_from_mnemonic, _get_mnemonic)

The C code is shallowly embedded: user interaction and external collaborators
(keystore, secure chip, memory, UI) are supplied as oracles in an environment
record, and every function returns, next to its C return value, the trace of
confirmations / external effects it produced, so that the theorems can speak
about what was presented to the user and what was persisted.
-/

namespace BitBox

/-! ## Embedding of apps/btc/confirm_multisig.c -/

/-- The BTCCoin protobuf enum. The four named constructors are the ones the
switch statements in confirm_multisig.c recognize; `unknownCoin` stands for
any other value of the underlying C enum. -/
inductive BTCCoin
  | BTC
  | TBTC
  | LTC
  | TLTC
  | unknownCoin (v : Nat)
deriving DecidableEq, Repr

/-- BTCScriptConfig_Multisig_ScriptType. `unknownScript` stands for any value
other than the two recognized ones (the `default:` case of the script-type
switches). -/
inductive MultisigScriptType
  | P2WSH
  | P2WSH_P2SH
  | unknownScript (v : Nat)
deriving DecidableEq, Repr

/-- BTCRegisterScriptConfigRequest_XPubType: the requested xpub-type family.
`unknownFamily` stands for any value other than the two recognized ones. -/
inductive RegisterXPubType
  | AUTO_ELECTRUM
  | AUTO_XPUB_TPUB
  | unknownFamily (v : Nat)
deriving DecidableEq, Repr

/-- The BTCPubRequest_XPubType values that confirm_multisig.c can produce as
`output_xpub_type`. -/
inductive PubXPubType
  | TPUB
  | XPUB
  | CAPITAL_VPUB
  | CAPITAL_ZPUB
  | CAPITAL_UPUB
  | CAPITAL_YPUB
deriving DecidableEq, Repr

/-- Result of the xpub-type resolution switch: a resolved output type, an
ordinary `return false` (unsupported script type), or a call to `Abort`. -/
inductive XPubResolution
  | resolved (t : PubXPubType)
  | unsupported
  | fatal (msg : String)
deriving DecidableEq, Repr

/-- The nested switch on (xpub_type, coin, multisig->script_type) in
apps_btc_confirm_multisig (confirm_multisig.c, lines 66-116), which computes
`output_xpub_type`. -/
def resolveXpubType (xpub_type : RegisterXPubType) (coin : BTCCoin)
    (script_type : MultisigScriptType) : XPubResolution :=
  match xpub_type with
  | .AUTO_ELECTRUM =>
    match coin with
    | .BTC | .LTC =>
      match script_type with
      | .P2WSH => .resolved .CAPITAL_ZPUB
      | .P2WSH_P2SH => .resolved .CAPITAL_YPUB
      | .unknownScript _ => .unsupported
    | .TBTC | .TLTC =>
      match script_type with
      | .P2WSH => .resolved .CAPITAL_VPUB
      | .P2WSH_P2SH => .resolved .CAPITAL_UPUB
      | .unknownScript _ => .unsupported
    | .unknownCoin _ => .fatal "confirm multisig: unknown coin"
  | .AUTO_XPUB_TPUB =>
    match coin with
    | .BTC | .LTC => .resolved .XPUB
    | .TBTC | .TLTC => .resolved .TPUB
    | .unknownCoin _ => .fatal "confirm multisig: unknown coin"
  | .unknownFamily _ => .fatal "confirm multisig: unknown xpub_type"

/-- The confirm_params_t fields that confirm_multisig.c sets. -/
structure ConfirmParams where
  title : String
  body : String
  scrollable : Bool
  longtouch : Bool
  accept_is_nextarrow : Bool
deriving DecidableEq, Repr

/-- Protobuf XPub message, abstract: the multisig embedding never looks inside
it, it only hands it to the (external) decoder. -/
abbrev XPub := Nat

/-- struct ext_key, abstract: only handed to the (external) encoder. -/
abbrev ExtKey := Nat

/-- The BTCScriptConfig_Multisig fields read by apps_btc_confirm_multisig.
`xpubs_count` of the protobuf message is `xpubs.length` here. -/
structure Multisig where
  threshold : Nat
  xpubs : List XPub
  our_xpub_index : Nat
  script_type : MultisigScriptType

/-- External collaborators of apps_btc_confirm_multisig: coin-name lookup,
bip32 decode/encode, the blocking user confirmation, and the (header-defined)
buffer size XPUB_ENCODED_LEN. `confirm p = true` means the user accepted the
confirmation `p`. -/
structure BtcEnv where
  coinName : BTCCoin → String
  bip32XpubFromProtobuf : XPub → Option ExtKey
  encodeXpub : ExtKey → PubXPubType → Option String
  confirm : ConfirmParams → Bool
  xpubEncodedLen : Nat

/-- Function outcome: an ordinary boolean return, or a call to `Abort`. -/
inductive MOutcome
  | ok (b : Bool)
  | abort (msg : String)
deriving DecidableEq, Repr

/-- The body the per-cosigner snprintf formats:
"Cosigner %lu/%lu (this device): %s" when `i == our_xpub_index`, and
"Cosigner %lu/%lu: %s" otherwise (confirm_multisig.c, lines 130-152). -/
def cosignerLine (i n : Nat) (thisDevice : Bool) (xpubStr : String) : String :=
  if thisDevice then
    "Cosigner " ++ toString (i + 1) ++ "/" ++ toString n ++ " (this device): " ++ xpubStr
  else
    "Cosigner " ++ toString (i + 1) ++ "/" ++ toString n ++ ": " ++ xpubStr

/-- The per-cosigner loop of apps_btc_confirm_multisig (lines 118-163), over
the list of (index, xpub) pairs still to process. Returns the outcome and the
list of per-cosigner confirmations that were presented. -/
def cosignerLoop (env : BtcEnv) (title : String) (n our_idx : Nat)
    (t : PubXPubType) : List (Nat × XPub) → MOutcome × List ConfirmParams
  | [] => (.ok true, [])
  | (i, x) :: rest =>
    match env.bip32XpubFromProtobuf x with
    | none => (.ok false, [])
    | some xk =>
      match env.encodeXpub xk t with
      | none => (.ok false, [])
      | some xpub_str =>
        let body := cosignerLine i n (decide (i = our_idx)) xpub_str
        if env.xpubEncodedLen + 100 ≤ body.length then
          (.abort (if i = our_idx then "apps_btc_confirm_multisig/1"
                   else "apps_btc_confirm_multisig/2"), [])
        else
          let params_xpub : ConfirmParams :=
            ⟨title, body, true, decide (i = n - 1), true⟩
          if env.confirm params_xpub then
            let next := cosignerLoop env title n our_idx t rest
            (next.1, params_xpub :: next.2)
          else (.ok false, [params_xpub])

/-- The body the first snprintf formats: "Coin: %s\nMultisig type: %lu-of-%lu"
(confirm_multisig.c, lines 33-39). -/
def basicInfoLine (env : BtcEnv) (coin : BTCCoin) (multisig : Multisig) : String :=
  "Coin: " ++ env.coinName coin ++ "\nMultisig type: " ++
    toString multisig.threshold ++ "-of-" ++ toString multisig.xpubs.length

/-- apps_btc_confirm_multisig (confirm_multisig.c, lines 24-165). Returns the
outcome and the full list of confirmations presented, in order. -/
def apps_btc_confirm_multisig (env : BtcEnv) (title : String) (coin : BTCCoin)
    (name : String) (multisig : Multisig) (verify_xpubs : Bool)
    (xpub_type : RegisterXPubType) : MOutcome × List ConfirmParams :=
  let basic_info := basicInfoLine env coin multisig
  if 100 ≤ basic_info.length then (.abort "apps_btc_confirm_multisig/0", [])
  else
    let params_basic : ConfirmParams := ⟨title, basic_info, false, false, true⟩
    if ¬ env.confirm params_basic then (.ok false, [params_basic])
    else
      let params_name : ConfirmParams := ⟨title, name, true, false, true⟩
      if ¬ env.confirm params_name then (.ok false, [params_basic, params_name])
      else if ¬ verify_xpubs then (.ok true, [params_basic, params_name])
      else
        match resolveXpubType xpub_type coin multisig.script_type with
        | .fatal msg => (.abort msg, [params_basic, params_name])
        | .unsupported => (.ok false, [params_basic, params_name])
        | .resolved t =>
          let r := cosignerLoop env title multisig.xpubs.length
            multisig.our_xpub_index t multisig.xpubs.enum
          (r.1, params_basic :: params_name :: r.2)

/-- The ConfirmParams value the cosigner loop presents for cosigner index `i`
out of `n`, when the xpub at `i` encodes to the string `xsf i`. -/
def cosParams (title : String) (n our_idx : Nat) (xsf : Nat → String) (i : Nat) :
    ConfirmParams :=
  ⟨title, cosignerLine i n (decide (i = our_idx)) (xsf i), true, decide (i = n - 1), true⟩

/-- Cosigner (i, x) passes every step of one loop iteration: its xpub decodes
to `kf i`, encodes to `xsf i`, the formatted body fits the snprintf buffer,
and the user accepts the confirmation. -/
def GoodAt (env : BtcEnv) (title : String) (n our_idx : Nat) (t : PubXPubType)
    (kf : Nat → ExtKey) (xsf : Nat → String) (i : Nat) (x : XPub) : Prop :=
  env.bip32XpubFromProtobuf x = some (kf i) ∧
  env.encodeXpub (kf i) t = some (xsf i) ∧
  (cosignerLine i n (decide (i = our_idx)) (xsf i)).length < env.xpubEncodedLen + 100 ∧
  env.confirm (cosParams title n our_idx xsf i) = true

/-- The bip32 decode of `x` fails, or it succeeds and the encode fails. -/
def decodeOrEncodeFails (env : BtcEnv) (t : PubXPubType) (x : XPub) : Prop :=
  match env.bip32XpubFromProtobuf x with
  | none => True
  | some k => env.encodeXpub k t = none

/-- Concrete environment used to witness the multisig theorems. -/
def sampleBtcEnv : BtcEnv where
  coinName := fun _ => "Bitcoin"
  bip32XpubFromProtobuf := fun x => some x
  encodeXpub := fun _ _ => some "xpubDEMO"
  confirm := fun _ => true
  xpubEncodedLen := 113

/-- Concrete 1-of-3 multisig configuration with our_xpub_index = 1. -/
def sampleMultisig : Multisig :=
  ⟨1, [10, 11, 12], 1, .P2WSH⟩

/-! ## Embedding of workflow/restore_from_mnemonic.c

C buffers holding secret strings are modelled as `List Char`; external
collaborators (keystore, secure chip, memory, UI) are oracles in a
`RestoreEnv` record, and the workflow returns its C return value together
with the final contents of the stack-frame secret buffers and the trace of
external effects. -/

/-- A C string buffer holding one word / password. -/
abbrev Word := List Char

/-- BIP39_WORDLIST_LEN (wally_bip39.h). -/
def BIP39_WORDLIST_LEN : Nat := 2048

/-- restore_from_mnemonic.c, line 41. -/
def WORKFLOW_RESTORE_FROM_MNEMONIC_MAX_WORDS : Nat := 24

/-- trinary_choice_t: the three buttons of the ternary choice screen. -/
inductive TrinaryChoice
  | left
  | middle
  | right
deriving DecidableEq, Repr

/-- _pick_number_of_words (restore_from_mnemonic.c, lines 55-74): left, middle
and right map to 12, 18 and 24 words. -/
def numWordsOfChoice : TrinaryChoice → Nat
  | .left => 12
  | .middle => 18
  | .right => 24

/-- One outcome of workflow_trinary_input_wordlist: the user accepted a word
(written into the slot at the current position), cancelled, or asked to go
back one word. -/
inductive WordInputResult
  | accepted (w : Word)
  | cancel
  | delete
deriving DecidableEq, Repr

/-- What one word-entry interaction presents: the word position and the
preset (the previously stored word at that position, if non-empty). -/
structure Prompt where
  position : Nat
  preset : Option Word
deriving DecidableEq, Repr

/-- The preset argument passed to workflow_trinary_input_wordlist:
`strlen(word) ? word : NULL` (restore_from_mnemonic.c, line 118). -/
def presetAt (ws : List Word) (idx : Nat) : Option Word :=
  if ws.getD idx [] = [] then none else some (ws.getD idx [])

/-- One iteration of the word-entry while loop (restore_from_mnemonic.c,
lines 120-129): Cancel returns, Delete moves back one position (a no-op at
position 0), Accepted stores the word and advances. `none` is the Cancel
return. -/
def entryStep (r : WordInputResult) (idx : Nat) (ws : List Word) :
    Option (Nat × List Word) :=
  match r with
  | .cancel => none
  | .delete => some (if 0 < idx then idx - 1 else idx, ws)
  | .accepted w => some (idx + 1, ws.set idx w)

/-- Result of the word-entry while loop. `exhausted` is a model artifact:
the oracle script ran out before the user finished (no C return happens). -/
inductive EntryOutcome
  | completed (ws : List Word)
  | cancelled
  | exhausted
deriving DecidableEq, Repr

/-- The word-entry while loop of _get_mnemonic (restore_from_mnemonic.c,
lines 106-130), consuming one oracle outcome per iteration; also returns the
trace of prompts presented (position and preset of each interaction). -/
def entryLoop (numWords : Nat) :
    List WordInputResult → Nat → List Word → List Prompt × EntryOutcome
  | [], _idx, ws =>
    if numWords ≤ _idx then ([], .completed ws) else ([], .exhausted)
  | r :: rest, idx, ws =>
    if numWords ≤ idx then ([], .completed ws)
    else
      let pr : Prompt := ⟨idx, presetAt ws idx⟩
      match entryStep r idx ws with
      | none => ([pr], .cancelled)
      | some st =>
        let next := entryLoop numWords rest st.1 st.2
        (pr :: next.1, next.2)

/-- The tail of the mnemonic-assembly loop (restore_from_mnemonic.c, lines
131-136): for each word after the first, `strcat` one space then `strncat`
the word truncated to maxLen characters. -/
def joinRest (maxLen : Nat) : List Word → List Char
  | [] => []
  | w :: ws => (' ' :: w.take maxLen) ++ joinRest maxLen ws

/-- The mnemonic-assembly loop: the first word is appended without a leading
space, every later word is preceded by exactly one space. -/
def joinWords (maxLen : Nat) : List Word → List Char
  | [] => []
  | w :: ws => w.take maxLen ++ joinRest maxLen ws

/-- keystore_unlock return value: KEYSTORE_OK or any error. -/
inductive KeystoreUnlockResult
  | KEYSTORE_OK
  | KEYSTORE_ERR (v : Nat)
deriving DecidableEq, Repr

/-- External collaborators and user-interaction oracles of
workflow_restore_from_mnemonic. `maxWordLen` is
WORKFLOW_TRINARY_INPUT_MAX_WORD_LENGTH (trinary_input.h, outside src/);
`seed0` is the arbitrary initial content of the uninitialized seed[32]
stack buffer. -/
structure RestoreEnv where
  getBip39Word : Nat → Option Word
  numWordsChoice : TrinaryChoice
  wordInputs : List WordInputResult
  maxWordLen : Nat
  seed0 : List Nat
  mnemonicToSeed : List Char → Option (List Nat)
  passwordOutcomes : List (Option Word)
  retryAgain : List Bool
  encryptStore : List Nat → Word → Bool
  appU2f : Bool
  timeOk : Bool
  u2fCounterOk : Bool
  memSetInitOk : Bool
  unlock : Word → KeystoreUnlockResult

/-- The wordlist-fetch loop of _get_mnemonic (lines 91-95): every one of the
2048 keystore_get_bip39_word calls must succeed. -/
def wordlistGettable (env : RestoreEnv) : Bool :=
  (List.range BIP39_WORDLIST_LEN).all fun i => (env.getBip39Word i).isSome

/-- _get_mnemonic result: the assembled mnemonic, a `return false`
(wordlist-fetch failure or user Cancel), or an exhausted oracle script. -/
inductive GetMnemonicResult
  | got (mnemonic : List Char)
  | failed
  | outOfInputs
deriving DecidableEq, Repr

/-- _get_mnemonic (restore_from_mnemonic.c, lines 86-138): fetch the
wordlist, pick the word count, run the entry loop, and join the first
num_words stored words. Also returns the prompt trace. -/
def _get_mnemonic (env : RestoreEnv) : GetMnemonicResult × List Prompt :=
  if ¬ wordlistGettable env then (.failed, [])
  else
    let num_words := numWordsOfChoice env.numWordsChoice
    let r := entryLoop num_words env.wordInputs 0
      (List.replicate WORKFLOW_RESTORE_FROM_MNEMONIC_MAX_WORDS [])
    match r.2 with
    | .cancelled => (.failed, r.1)
    | .exhausted => (.outOfInputs, r.1)
    | .completed ws => (.got (joinWords env.maxWordLen (ws.take num_words)), r.1)

/-- The stack-frame secret buffers of workflow_restore_from_mnemonic. -/
structure SecretFrame where
  mnemonic : List Char
  seed : List Nat
  password : Word
deriving DecidableEq, Repr

/-- All three secret buffers overwritten with zero bytes. -/
def zeroizedFrame : SecretFrame := ⟨[], List.replicate 32 0, []⟩

/-- Modelled from the spec: UTIL_CLEANUP_STR and UTIL_CLEANUP_32 (util.h,
outside src/) attach cleanup attributes that overwrite the registered
buffers — the mnemonic string, the 32-byte seed and the password string —
with zero bytes when the enclosing scope exits, i.e. on every ordinary
return path (not on Abort, which halts the process without unwinding). -/
def runCleanups (_f : SecretFrame) : SecretFrame := zeroizedFrame

/-- keystore_bip39_mnemonic_to_seed writing seed_len bytes into the 32-byte
buffer: the written bytes followed by the untouched rest. -/
def writeBytes (old new : List Nat) : List Nat := new ++ old.drop new.length

/-- Externally observable effects of the workflow, in call order. -/
inductive REvent
  | status (msg : String) (success : Bool)
  | storeSeed (seed : List Nat) (password : Word) (ok : Bool)
  | confirmTimeEv (accepted : Bool)
  | u2fCounterEv (ok : Bool)
  | memSetInitEv (ok : Bool)
  | unlockEv (password : Word)
  | unlockBip39Ev
deriving DecidableEq, Repr

/-- Workflow result: an ordinary boolean return, a call to Abort, or an
exhausted oracle script (model artifact, no C return happens). -/
inductive WfResult
  | finished (success : Bool)
  | fatal (msg : String)
  | outOfScript
deriving DecidableEq, Repr

/-- Result of the password-retry while loop. -/
inductive PwLoopResult
  | gotten (pw : Word)
  | abandoned
  | outOfScriptPw
deriving DecidableEq, Repr

/-- The password while loop (restore_from_mnemonic.c, lines 166-179): each
iteration consumes one password_set outcome (`some pw` when both entries
matched, `none` on mismatch); a mismatch consumes one response to the
"Passwords do not match. Try again?" confirmation, declining which aborts
the loop. -/
def passwordRetryLoop : List (Option Word) → List Bool → PwLoopResult
  | [], _ => .outOfScriptPw
  | some pw :: _, _ => .gotten pw
  | none :: _, [] => .outOfScriptPw
  | none :: rest, b :: bs =>
    if b then passwordRetryLoop rest bs else .abandoned

/-- The tail of the workflow after the optional U2F block (lines 194-203):
memory_set_initialized, then keystore_unlock, whose failure is an Abort. -/
def finalizeStage (env : RestoreEnv) (f : SecretFrame) (pw : Word)
    (evs : List REvent) : WfResult × SecretFrame × List REvent :=
  if ¬ env.memSetInitOk then
    (.finished false, runCleanups f, evs ++ [.memSetInitEv false])
  else
    match env.unlock pw with
    | .KEYSTORE_OK =>
      (.finished true, runCleanups f,
        evs ++ [.memSetInitEv true, .unlockEv pw, .unlockBip39Ev])
    | .KEYSTORE_ERR _ =>
      (.fatal "workflow_restore_from_mnemonic: unlock failed", f,
        evs ++ [.memSetInitEv true, .unlockEv pw])

/-- The `#if APP_U2F == 1` block (lines 184-193): confirm the timestamp
(decline returns failure), then set the U2F counter, whose failure is
ignored. -/
def u2fStage (env : RestoreEnv) (f : SecretFrame) (pw : Word)
    (evs : List REvent) : WfResult × SecretFrame × List REvent :=
  if env.appU2f then
    if ¬ env.timeOk then
      (.finished false, runCleanups f, evs ++ [.confirmTimeEv false])
    else
      finalizeStage env f pw
        (evs ++ [.confirmTimeEv true, .u2fCounterEv env.u2fCounterOk])
  else finalizeStage env f pw evs

/-- workflow_restore_from_mnemonic (restore_from_mnemonic.c, lines 140-204).
Returns the C result, the final contents of the secret stack buffers, and
the trace of external effects. -/
def workflow_restore_from_mnemonic (env : RestoreEnv) :
    WfResult × SecretFrame × List REvent :=
  match (_get_mnemonic env).1 with
  | .outOfInputs => (.outOfScript, ⟨[], env.seed0, []⟩, [])
  | .failed => (.finished false, runCleanups ⟨[], env.seed0, []⟩, [])
  | .got mnemonic =>
    match env.mnemonicToSeed mnemonic with
    | none =>
      (.finished false, runCleanups ⟨mnemonic, env.seed0, []⟩,
        [.status "Recovery words\ninvalid" false])
    | some seedBytes =>
      let evs0 : List REvent := [.status "Recovery words\nvalid" true]
      match passwordRetryLoop env.passwordOutcomes env.retryAgain with
      | .outOfScriptPw =>
        (.outOfScript, ⟨mnemonic, writeBytes env.seed0 seedBytes, []⟩, evs0)
      | .abandoned =>
        (.finished false,
          runCleanups ⟨mnemonic, writeBytes env.seed0 seedBytes, []⟩, evs0)
      | .gotten pw =>
        let f3 : SecretFrame := ⟨mnemonic, writeBytes env.seed0 seedBytes, pw⟩
        if ¬ env.encryptStore seedBytes pw then
          (.finished false, runCleanups f3,
            evs0 ++ [.storeSeed seedBytes pw false,
              .status "Could not\nrestore backup" false])
        else
          u2fStage env f3 pw (evs0 ++ [.storeSeed seedBytes pw true])

/-- Concrete environment used to witness the restore-workflow theorems:
12 words entered directly, matching passwords on the first attempt, all
collaborators succeed, APP_U2F off. -/
def sampleRestoreEnv : RestoreEnv where
  getBip39Word := fun _ => some ['a']
  numWordsChoice := .left
  wordInputs := List.replicate 12 (.accepted ['a', 'b'])
  maxWordLen := 30
  seed0 := List.replicate 32 7
  mnemonicToSeed := fun _ => some [1, 2, 3]
  passwordOutcomes := [some ['p']]
  retryAgain := []
  encryptStore := fun _ _ => true
  appU2f := false
  timeOk := true
  u2fCounterOk := true
  memSetInitOk := true
  unlock := fun _ => .KEYSTORE_OK

/-- The mnemonic sampleRestoreEnv's entry script produces. -/
def sampleMnemonic : List Char := joinWords 30 (List.replicate 12 ['a', 'b'])

/-- sampleRestoreEnv with one password mismatch, an accepted retry, then a
match. -/
def retryRestoreEnv : RestoreEnv :=
  { sampleRestoreEnv with
    passwordOutcomes := [none, some ['p']]
    retryAgain := [true] }

/-- sampleRestoreEnv with a mismatch, an accepted retry, a second mismatch
and a declined retry. -/
def pwDeclineRestoreEnv : RestoreEnv :=
  { sampleRestoreEnv with
    passwordOutcomes := [none, none]
    retryAgain := [true, false] }

/-- sampleRestoreEnv whose keystore_unlock always fails. -/
def badUnlockRestoreEnv : RestoreEnv :=
  { sampleRestoreEnv with unlock := fun _ => .KEYSTORE_ERR 3 }

/-- sampleRestoreEnv under APP_U2F with the timestamp confirmation declined. -/
def u2fDeclineRestoreEnv : RestoreEnv :=
  { sampleRestoreEnv with appU2f := true, timeOk := false }

/-! ### C1 and C7: the resolution table -/

/-- C1: the xpub-type resolution inside apps_btc_confirm_multisig equals the
reference table: under AUTO_ELECTRUM, mainnet coins (BTC, LTC) map P2WSH to
CAPITAL_ZPUB and P2WSH_P2SH to CAPITAL_YPUB, testnet coins (TBTC, TLTC) map
P2WSH to CAPITAL_VPUB and P2WSH_P2SH to CAPITAL_UPUB, and any other script
type is a failure return; under AUTO_XPUB_TPUB, mainnet coins resolve to XPUB
and testnet coins to TPUB, for every script type. -/
theorem C1_xpub_resolution_table :
    (resolveXpubType .AUTO_ELECTRUM .BTC .P2WSH = .resolved .CAPITAL_ZPUB) ∧
    (resolveXpubType .AUTO_ELECTRUM .LTC .P2WSH = .resolved .CAPITAL_ZPUB) ∧
    (resolveXpubType .AUTO_ELECTRUM .BTC .P2WSH_P2SH = .resolved .CAPITAL_YPUB) ∧
    (resolveXpubType .AUTO_ELECTRUM .LTC .P2WSH_P2SH = .resolved .CAPITAL_YPUB) ∧
    (resolveXpubType .AUTO_ELECTRUM .TBTC .P2WSH = .resolved .CAPITAL_VPUB) ∧
    (resolveXpubType .AUTO_ELECTRUM .TLTC .P2WSH = .resolved .CAPITAL_VPUB) ∧
    (resolveXpubType .AUTO_ELECTRUM .TBTC .P2WSH_P2SH = .resolved .CAPITAL_UPUB) ∧
    (resolveXpubType .AUTO_ELECTRUM .TLTC .P2WSH_P2SH = .resolved .CAPITAL_UPUB) ∧
    (∀ v : Nat,
      resolveXpubType .AUTO_ELECTRUM .BTC (.unknownScript v) = .unsupported ∧
      resolveXpubType .AUTO_ELECTRUM .LTC (.unknownScript v) = .unsupported ∧
      resolveXpubType .AUTO_ELECTRUM .TBTC (.unknownScript v) = .unsupported ∧
      resolveXpubType .AUTO_ELECTRUM .TLTC (.unknownScript v) = .unsupported) ∧
    (∀ s : MultisigScriptType,
      resolveXpubType .AUTO_XPUB_TPUB .BTC s = .resolved .XPUB ∧
      resolveXpubType .AUTO_XPUB_TPUB .LTC s = .resolved .XPUB ∧
      resolveXpubType .AUTO_XPUB_TPUB .TBTC s = .resolved .TPUB ∧
      resolveXpubType .AUTO_XPUB_TPUB .TLTC s = .resolved .TPUB) :=
  ⟨rfl, rfl, rfl, rfl, rfl, rfl, rfl, rfl,
   fun _ => ⟨rfl, rfl, rfl, rfl⟩,
   fun _ => ⟨rfl, rfl, rfl, rfl⟩⟩

/-- C7: in the xpub-type resolution, an unrecognized coin under either
recognized family, and an unrecognized family for any coin and script type,
hit an Abort (fatal), not an ordinary failure return; by contrast an
unsupported script type under AUTO_ELECTRUM for a recognized coin is an
ordinary failure return. -/
theorem C7_unknown_coin_or_family_fatal :
    (∀ v : Nat, ∀ s : MultisigScriptType,
      resolveXpubType .AUTO_ELECTRUM (.unknownCoin v) s =
        .fatal "confirm multisig: unknown coin") ∧
    (∀ v : Nat, ∀ s : MultisigScriptType,
      resolveXpubType .AUTO_XPUB_TPUB (.unknownCoin v) s =
        .fatal "confirm multisig: unknown coin") ∧
    (∀ w : Nat, ∀ c : BTCCoin, ∀ s : MultisigScriptType,
      resolveXpubType (.unknownFamily w) c s =
        .fatal "confirm multisig: unknown xpub_type") ∧
    (∀ v : Nat,
      resolveXpubType .AUTO_ELECTRUM .BTC (.unknownScript v) = .unsupported ∧
      resolveXpubType .AUTO_ELECTRUM .LTC (.unknownScript v) = .unsupported ∧
      resolveXpubType .AUTO_ELECTRUM .TBTC (.unknownScript v) = .unsupported ∧
      resolveXpubType .AUTO_ELECTRUM .TLTC (.unknownScript v) = .unsupported) :=
  ⟨fun _ _ => rfl, fun _ _ => rfl, fun _ _ _ => rfl,
   fun _ => ⟨rfl, rfl, rfl, rfl⟩⟩

/-! ### C2: the cosigner confirmation sequence -/

theorem cosignerLoop_all_good (env : BtcEnv) (title : String) (n our_idx : Nat)
    (t : PubXPubType) (kf : Nat → ExtKey) (xsf : Nat → String) :
    ∀ l : List (Nat × XPub),
      (∀ q ∈ l, GoodAt env title n our_idx t kf xsf q.1 q.2) →
      cosignerLoop env title n our_idx t l =
        (.ok true, l.map fun q => cosParams title n our_idx xsf q.1)
  | [], _ => by simp [cosignerLoop]
  | (i, x) :: rest, h => by
    obtain ⟨hdec, henc, hfit, hconf⟩ := h (i, x) (List.mem_cons_self _ _)
    dsimp only at hdec henc hfit hconf
    have ih := cosignerLoop_all_good env title n our_idx t kf xsf rest
      (fun q hq => h q (List.mem_cons_of_mem _ hq))
    have hconf' :
        env.confirm ⟨title, cosignerLine i n (decide (i = our_idx)) (xsf i), true,
          decide (i = n - 1), true⟩ = true := hconf
    simp only [cosignerLoop, hdec, henc, hconf', if_true, ih, List.map_cons]
    rw [if_neg (by omega)]
    rfl

theorem cosignerLoop_bad_after_good (env : BtcEnv) (title : String)
    (n our_idx : Nat) (t : PubXPubType) (kf : Nat → ExtKey) (xsf : Nat → String) :
    ∀ (l1 : List (Nat × XPub)) (j : Nat) (x : XPub) (l2 : List (Nat × XPub)),
      (∀ q ∈ l1, GoodAt env title n our_idx t kf xsf q.1 q.2) →
      decodeOrEncodeFails env t x →
      cosignerLoop env title n our_idx t (l1 ++ (j, x) :: l2) =
        (.ok false, l1.map fun q => cosParams title n our_idx xsf q.1)
  | [], j, x, l2, _, hbad => by
    unfold decodeOrEncodeFails at hbad
    match hdec : env.bip32XpubFromProtobuf x with
    | none => simp only [List.nil_append, cosignerLoop, hdec, List.map_nil]
    | some k =>
      rw [hdec] at hbad
      simp only [List.nil_append, cosignerLoop, hdec, hbad, List.map_nil]
  | (i, y) :: l1, j, x, l2, h, hbad => by
    obtain ⟨hdec, henc, hfit, hconf⟩ := h (i, y) (List.mem_cons_self _ _)
    dsimp only at hdec henc hfit hconf
    have ih := cosignerLoop_bad_after_good env title n our_idx t kf xsf l1 j x l2
      (fun q hq => h q (List.mem_cons_of_mem _ hq)) hbad
    have hconf' :
        env.confirm ⟨title, cosignerLine i n (decide (i = our_idx)) (xsf i), true,
          decide (i = n - 1), true⟩ = true := hconf
    simp only [List.cons_append, cosignerLoop, List.append_eq, hdec, henc, hconf',
      if_true, ih, List.map_cons]
    rw [if_neg (by omega)]
    rfl

theorem cosignerLoop_declined_after_good (env : BtcEnv) (title : String)
    (n our_idx : Nat) (t : PubXPubType) (kf : Nat → ExtKey) (xsf : Nat → String) :
    ∀ (l1 : List (Nat × XPub)) (j : Nat) (x : XPub) (l2 : List (Nat × XPub)),
      (∀ q ∈ l1, GoodAt env title n our_idx t kf xsf q.1 q.2) →
      env.bip32XpubFromProtobuf x = some (kf j) →
      env.encodeXpub (kf j) t = some (xsf j) →
      (cosignerLine j n (decide (j = our_idx)) (xsf j)).length < env.xpubEncodedLen + 100 →
      env.confirm (cosParams title n our_idx xsf j) = false →
      cosignerLoop env title n our_idx t (l1 ++ (j, x) :: l2) =
        (.ok false, (l1.map fun q => cosParams title n our_idx xsf q.1) ++
          [cosParams title n our_idx xsf j])
  | [], j, x, l2, _, hdec, henc, hfit, hdecl => by
    have hdecl' :
        env.confirm ⟨title, cosignerLine j n (decide (j = our_idx)) (xsf j), true,
          decide (j = n - 1), true⟩ = false := hdecl
    simp only [List.nil_append, cosignerLoop, hdec, henc, hdecl', List.map_nil]
    rw [if_neg (by omega)]
    rfl
  | (i, y) :: l1, j, x, l2, h, hdec, henc, hfit, hdecl => by
    obtain ⟨hdeci, henci, hfiti, hconfi⟩ := h (i, y) (List.mem_cons_self _ _)
    dsimp only at hdeci henci hfiti hconfi
    have ih := cosignerLoop_declined_after_good env title n our_idx t kf xsf l1 j x l2
      (fun q hq => h q (List.mem_cons_of_mem _ hq)) hdec henc hfit hdecl
    have hconf' :
        env.confirm ⟨title, cosignerLine i n (decide (i = our_idx)) (xsf i), true,
          decide (i = n - 1), true⟩ = true := hconfi
    simp only [List.cons_append, cosignerLoop, List.append_eq, hdeci, henci, hconf',
      if_true, ih, List.map_cons]
    rw [if_neg (by omega)]
    rfl

theorem mem_enum_fields (xs : List XPub) (q : Nat × XPub) (hq : q ∈ xs.enum) :
    q.1 < xs.length ∧ q.2 = xs.getD q.1 0 := by
  obtain ⟨i, hi, rfl⟩ := List.mem_iff_getElem.1 hq
  rw [List.getElem_enum]
  have hi' : i < xs.length := by simpa using hi
  exact ⟨hi', by rw [List.getD_eq_getElem _ _ hi']⟩

theorem mem_enum_take_fields (xs : List XPub) (j : Nat) (q : Nat × XPub)
    (hq : q ∈ (xs.enum).take j) :
    q.1 < j ∧ q.1 < xs.length ∧ q.2 = xs.getD q.1 0 := by
  obtain ⟨i, hi, rfl⟩ := List.mem_iff_getElem.1 hq
  have hij : i < j ∧ i < xs.length := by
    have := List.length_take j xs.enum
    rw [List.enum_length] at this
    omega
  rw [List.getElem_take, List.getElem_enum]
  exact ⟨hij.1, hij.2, by rw [List.getD_eq_getElem _ _ hij.2]⟩

theorem enum_map_cosParams (xs : List XPub) (f : Nat → ConfirmParams) :
    (xs.enum).map (fun q => f q.1) = (List.range xs.length).map f := by
  rw [← List.enum_map_fst xs, List.map_map]
  rfl

theorem enum_take_map_cosParams (xs : List XPub) (j : Nat) (hj : j < xs.length)
    (f : Nat → ConfirmParams) :
    ((xs.enum).take j).map (fun q => f q.1) = (List.range j).map f := by
  rw [List.map_take, enum_map_cosParams, ← List.map_take, List.take_range,
    Nat.min_eq_left (le_of_lt hj)]

/-- C2: with verify_xpubs = true, after the summary and name confirmations are
accepted and the xpub type resolved, apps_btc_confirm_multisig presents one
per-cosigner confirmation for each index i in ascending order, whose body
carries the 1-based position i+1, the total count, and the "(this device)"
marker exactly when i = our_xpub_index, and whose longtouch flag is set
exactly for the last cosigner; a declined confirmation at index j, or a
decode/encode failure at index j, returns failure immediately with no
confirmation of index greater than j ever presented. -/
theorem C2_cosigner_confirmation_sequence
    (env : BtcEnv) (title name : String) (coin : BTCCoin) (m : Multisig)
    (xt : RegisterXPubType) (t : PubXPubType)
    (kf : Nat → ExtKey) (xsf : Nat → String)
    (hres : resolveXpubType xt coin m.script_type = .resolved t)
    (hlen : (basicInfoLine env coin m).length < 100)
    (hb : env.confirm ⟨title, basicInfoLine env coin m, false, false, true⟩ = true)
    (hnm : env.confirm ⟨title, name, true, false, true⟩ = true) :
    ((∀ i, i < m.xpubs.length →
        GoodAt env title m.xpubs.length m.our_xpub_index t kf xsf i (m.xpubs.getD i 0)) →
      apps_btc_confirm_multisig env title coin name m true xt =
        (.ok true,
          ⟨title, basicInfoLine env coin m, false, false, true⟩ ::
          ⟨title, name, true, false, true⟩ ::
          (List.range m.xpubs.length).map
            (cosParams title m.xpubs.length m.our_xpub_index xsf))) ∧
    (∀ j, j < m.xpubs.length →
      (∀ i, i < j →
        GoodAt env title m.xpubs.length m.our_xpub_index t kf xsf i (m.xpubs.getD i 0)) →
      env.bip32XpubFromProtobuf (m.xpubs.getD j 0) = some (kf j) →
      env.encodeXpub (kf j) t = some (xsf j) →
      (cosignerLine j m.xpubs.length (decide (j = m.our_xpub_index)) (xsf j)).length <
        env.xpubEncodedLen + 100 →
      env.confirm (cosParams title m.xpubs.length m.our_xpub_index xsf j) = false →
      apps_btc_confirm_multisig env title coin name m true xt =
        (.ok false,
          ⟨title, basicInfoLine env coin m, false, false, true⟩ ::
          ⟨title, name, true, false, true⟩ ::
          ((List.range j).map (cosParams title m.xpubs.length m.our_xpub_index xsf) ++
            [cosParams title m.xpubs.length m.our_xpub_index xsf j]))) ∧
    (∀ j, j < m.xpubs.length →
      (∀ i, i < j →
        GoodAt env title m.xpubs.length m.our_xpub_index t kf xsf i (m.xpubs.getD i 0)) →
      decodeOrEncodeFails env t (m.xpubs.getD j 0) →
      apps_btc_confirm_multisig env title coin name m true xt =
        (.ok false,
          ⟨title, basicInfoLine env coin m, false, false, true⟩ ::
          ⟨title, name, true, false, true⟩ ::
          (List.range j).map (cosParams title m.xpubs.length m.our_xpub_index xsf))) := by
  have hmain :
      apps_btc_confirm_multisig env title coin name m true xt =
        ((cosignerLoop env title m.xpubs.length m.our_xpub_index t m.xpubs.enum).1,
          ⟨title, basicInfoLine env coin m, false, false, true⟩ ::
          ⟨title, name, true, false, true⟩ ::
          (cosignerLoop env title m.xpubs.length m.our_xpub_index t m.xpubs.enum).2) := by
    simp only [apps_btc_confirm_multisig, hres, hb, hnm]
    rw [if_neg (by omega)]
    simp
  refine ⟨?_, ?_, ?_⟩
  · intro hall
    have hmem : ∀ q ∈ m.xpubs.enum,
        GoodAt env title m.xpubs.length m.our_xpub_index t kf xsf q.1 q.2 := by
      intro q hq
      obtain ⟨h1, h2⟩ := mem_enum_fields m.xpubs q hq
      rw [h2]
      exact hall q.1 h1
    rw [hmain, cosignerLoop_all_good env title m.xpubs.length m.our_xpub_index t kf xsf
      m.xpubs.enum hmem, enum_map_cosParams]
  · intro j hj hgood hdec henc hfit hdecl
    have hjlen : j < m.xpubs.enum.length := by rw [List.enum_length]; exact hj
    have hsplit : m.xpubs.enum =
        (m.xpubs.enum).take j ++ (j, m.xpubs.getD j 0) :: (m.xpubs.enum).drop (j + 1) := by
      conv_lhs => rw [← List.take_append_drop j m.xpubs.enum]
      rw [List.drop_eq_getElem_cons hjlen, List.getElem_enum,
        List.getD_eq_getElem _ _ hj]
    have hpre : ∀ q ∈ (m.xpubs.enum).take j,
        GoodAt env title m.xpubs.length m.our_xpub_index t kf xsf q.1 q.2 := by
      intro q hq
      obtain ⟨h1, h2, h3⟩ := mem_enum_take_fields m.xpubs j q hq
      rw [h3]
      exact hgood q.1 h1
    rw [hmain, hsplit, cosignerLoop_declined_after_good env title m.xpubs.length
      m.our_xpub_index t kf xsf _ j _ _ hpre hdec henc hfit hdecl,
      enum_take_map_cosParams m.xpubs j hj]
  · intro j hj hgood hbad
    have hjlen : j < m.xpubs.enum.length := by rw [List.enum_length]; exact hj
    have hsplit : m.xpubs.enum =
        (m.xpubs.enum).take j ++ (j, m.xpubs.getD j 0) :: (m.xpubs.enum).drop (j + 1) := by
      conv_lhs => rw [← List.take_append_drop j m.xpubs.enum]
      rw [List.drop_eq_getElem_cons hjlen, List.getElem_enum,
        List.getD_eq_getElem _ _ hj]
    have hpre : ∀ q ∈ (m.xpubs.enum).take j,
        GoodAt env title m.xpubs.length m.our_xpub_index t kf xsf q.1 q.2 := by
      intro q hq
      obtain ⟨h1, h2, h3⟩ := mem_enum_take_fields m.xpubs j q hq
      rw [h3]
      exact hgood q.1 h1
    rw [hmain, hsplit, cosignerLoop_bad_after_good env title m.xpubs.length
      m.our_xpub_index t kf xsf _ j _ _ hpre hbad,
      enum_take_map_cosParams m.xpubs j hj]

/-- Witness for C2: 3 cosigners, our_xpub_index = 1, all confirmations
accepted: exactly 3 per-cosigner confirmations in ascending order. -/
theorem C2_cosigner_confirmation_sequence_witness :
    apps_btc_confirm_multisig sampleBtcEnv "Register" BTCCoin.BTC "my multisig"
      sampleMultisig true .AUTO_ELECTRUM =
      (.ok true,
        ⟨"Register", basicInfoLine sampleBtcEnv BTCCoin.BTC sampleMultisig,
          false, false, true⟩ ::
        ⟨"Register", "my multisig", true, false, true⟩ ::
        (List.range sampleMultisig.xpubs.length).map
          (cosParams "Register" sampleMultisig.xpubs.length
            sampleMultisig.our_xpub_index (fun _ => "xpubDEMO"))) :=
  (C2_cosigner_confirmation_sequence sampleBtcEnv "Register" "my multisig"
      BTCCoin.BTC sampleMultisig .AUTO_ELECTRUM .CAPITAL_ZPUB
      (fun i => sampleMultisig.xpubs.getD i 0) (fun _ => "xpubDEMO")
      rfl (by decide) rfl rfl).1
    (by
      intro i hi
      have hi' : i < 3 := by simpa [sampleMultisig] using hi
      interval_cases i <;> exact ⟨rfl, rfl, by decide, rfl⟩)

/-! ### C8 and C9: the Delete transition -/

theorem getD_set_self {α : Type} (l : List α) (n : Nat) (w d : α)
    (h : n < l.length) : (l.set n w).getD n d = w := by
  rw [List.getD_eq_getElem?_getD, List.getElem?_set_self h]
  rfl

theorem getD_set_ne {α : Type} (l : List α) (n m : Nat) (w d : α)
    (h : n ≠ m) : (l.set n w).getD m d = l.getD m d := by
  rw [List.getD_eq_getElem?_getD, List.getElem?_set_ne h,
    ← List.getD_eq_getElem?_getD]

theorem set_getD_self {α : Type} (l : List α) (n : Nat) (d : α)
    (h : n < l.length) : l.set n (l.getD n d) = l := by
  apply List.ext_getElem?
  intro m
  by_cases hm : n = m
  · subst hm
    rw [List.getElem?_set_self h, List.getD_eq_getElem _ _ h,
      List.getElem?_eq_getElem h]
  · rw [List.getElem?_set_ne hm]

/-- C8: a Delete outcome at position 0 is the identity on the assembler state
(position stays 0, no stored word changes, no error), while at any position
p > 0 it moves to state (p - 1, same words); at loop level the iteration after
a Delete at p > 0 prompts at position p - 1 with the stored word at p - 1 as
preset. -/
theorem C8_delete_transition :
    (∀ ws : List Word, entryStep .delete 0 ws = some (0, ws)) ∧
    (∀ (p : Nat) (ws : List Word), 0 < p →
      entryStep .delete p ws = some (p - 1, ws)) ∧
    (∀ (numWords p : Nat) (rest : List WordInputResult) (ws : List Word),
      0 < p → p < numWords →
      entryLoop numWords (.delete :: rest) p ws =
        (⟨p, presetAt ws p⟩ :: (entryLoop numWords rest (p - 1) ws).1,
         (entryLoop numWords rest (p - 1) ws).2)) ∧
    (∀ (numWords : Nat) (rest : List WordInputResult) (ws : List Word),
      0 < numWords →
      entryLoop numWords (.delete :: rest) 0 ws =
        (⟨0, presetAt ws 0⟩ :: (entryLoop numWords rest 0 ws).1,
         (entryLoop numWords rest 0 ws).2)) ∧
    (∀ (numWords p : Nat) (r : WordInputResult) (rest : List WordInputResult)
        (ws : List Word),
      0 < p → p < numWords →
      (entryLoop numWords (.delete :: r :: rest) p ws).1.take 2 =
        [⟨p, presetAt ws p⟩, ⟨p - 1, presetAt ws (p - 1)⟩]) := by
  refine ⟨fun ws => rfl, ?_, ?_, ?_, ?_⟩
  · intro p ws hp
    simp [entryStep, Nat.pos_iff_ne_zero.1 hp, hp]
  · intro numWords p rest ws hp hpn
    rw [entryLoop]
    rw [if_neg (by omega)]
    simp [entryStep, hp]
  · intro numWords rest ws hn
    rw [entryLoop]
    rw [if_neg (by omega)]
    rfl
  · intro numWords p r rest ws hp hpn
    rw [entryLoop]
    rw [if_neg (by omega)]
    simp only [entryStep, hp, if_pos]
    rw [entryLoop]
    rw [if_neg (by omega)]
    cases r with
    | cancel => simp [entryStep]
    | delete => simp [entryStep]
    | accepted w => simp [entryStep]

/-- Witness for C8: Delete at position 1 with 12 words prompts at position 1
and continues the loop at position 0 on unchanged words. -/
theorem C8_delete_transition_witness :
    entryLoop 12 [.delete] 1 (List.replicate 24 ([] : Word)) =
      (⟨1, presetAt (List.replicate 24 []) 1⟩ ::
        (entryLoop 12 [] (1 - 1) (List.replicate 24 [])).1,
       (entryLoop 12 [] (1 - 1) (List.replicate 24 [])).2) :=
  C8_delete_transition.2.2.1 12 1 [] (List.replicate 24 []) (by decide) (by decide)

/-- C9: a Delete at position p > 0 immediately followed by re-accepting the
word already stored at p - 1 continues the loop in exactly the state (p, ws)
it started from, so the stored word slots, the loop outcome and hence the
final assembled mnemonic are identical to the run in which the Delete never
occurred. -/
theorem C9_delete_reaccept_identity (numWords p : Nat)
    (rest : List WordInputResult) (ws : List Word) (w : Word)
    (hp : 0 < p) (hpn : p < numWords) (hlen : p - 1 < ws.length)
    (hw : ws.getD (p - 1) [] = w) :
    entryLoop numWords (.delete :: .accepted w :: rest) p ws =
      (⟨p, presetAt ws p⟩ :: ⟨p - 1, presetAt ws (p - 1)⟩ ::
        (entryLoop numWords rest p ws).1,
       (entryLoop numWords rest p ws).2) ∧
    (entryLoop numWords (.delete :: .accepted w :: rest) p ws).2 =
      (entryLoop numWords rest p ws).2 := by
  have hset : ws.set (p - 1) w = ws := by
    rw [← hw]
    exact set_getD_self ws (p - 1) [] hlen
  have hstep : entryLoop numWords (.delete :: .accepted w :: rest) p ws =
      (⟨p, presetAt ws p⟩ :: ⟨p - 1, presetAt ws (p - 1)⟩ ::
        (entryLoop numWords rest p ws).1,
       (entryLoop numWords rest p ws).2) := by
    rw [entryLoop]
    rw [if_neg (by omega)]
    simp only [entryStep, hp, if_pos]
    rw [entryLoop]
    rw [if_neg (by omega)]
    simp only [entryStep, hset]
    have hsucc : p - 1 + 1 = p := by omega
    rw [hsucc]
  exact ⟨hstep, by rw [hstep]⟩

/-- Witness for C9: with words ['a','b'] stored at position 0, Delete at
position 1 followed by re-accepting ['a','b'] continues like the run without
the Delete. -/
theorem C9_delete_reaccept_identity_witness :
    entryLoop 12 [.delete, .accepted ['a', 'b']] 1
        ((List.replicate 24 ([] : Word)).set 0 ['a', 'b']) =
      (⟨1, presetAt ((List.replicate 24 []).set 0 ['a', 'b']) 1⟩ ::
        ⟨1 - 1, presetAt ((List.replicate 24 []).set 0 ['a', 'b']) (1 - 1)⟩ ::
        (entryLoop 12 [] 1 ((List.replicate 24 []).set 0 ['a', 'b'])).1,
       (entryLoop 12 [] 1 ((List.replicate 24 []).set 0 ['a', 'b'])).2) ∧
    (entryLoop 12 [.delete, .accepted ['a', 'b']] 1
        ((List.replicate 24 ([] : Word)).set 0 ['a', 'b'])).2 =
      (entryLoop 12 [] 1 ((List.replicate 24 []).set 0 ['a', 'b'])).2 :=
  C9_delete_reaccept_identity 12 1 [] ((List.replicate 24 []).set 0 ['a', 'b'])
    ['a', 'b'] (by decide) (by decide) (by decide) (by decide)

/-! ### C4: shape of the assembled mnemonic -/

/-- If every accepted word of the script satisfies P and every already-stored
slot below the current position satisfies P, then on completion every slot
below numWords satisfies P, and the slot list keeps its length. -/
theorem entryLoop_completed_invariant (numWords : Nat) (P : Word → Prop) :
    ∀ (inputs : List WordInputResult) (idx : Nat) (ws ws' : List Word),
      (∀ w, WordInputResult.accepted w ∈ inputs → P w) →
      (∀ j, j < idx → P (ws.getD j [])) →
      numWords ≤ ws.length →
      (entryLoop numWords inputs idx ws).2 = .completed ws' →
      (∀ j, j < numWords → P (ws'.getD j [])) ∧ ws'.length = ws.length
  | [], idx, ws, ws', _, hinv, hle, hcomp => by
    by_cases h : numWords ≤ idx
    · rw [entryLoop, if_pos h] at hcomp
      cases hcomp
      exact ⟨fun j hj => hinv j (by omega), rfl⟩
    · rw [entryLoop, if_neg h] at hcomp
      cases hcomp
  | r :: rest, idx, ws, ws', hP, hinv, hle, hcomp => by
    by_cases h : numWords ≤ idx
    · rw [entryLoop, if_pos h] at hcomp
      cases hcomp
      exact ⟨fun j hj => hinv j (by omega), rfl⟩
    · rw [entryLoop, if_neg h] at hcomp
      cases r with
      | cancel => cases hcomp
      | delete =>
        simp only [entryStep] at hcomp
        have := entryLoop_completed_invariant numWords P rest
          (if 0 < idx then idx - 1 else idx) ws ws'
          (fun w hw => hP w (List.mem_cons_of_mem _ hw))
          (fun j hj => hinv j (by split at hj <;> omega)) hle hcomp
        exact this
      | accepted w =>
        simp only [entryStep] at hcomp
        have hidx : idx < ws.length := by omega
        have hinv' : ∀ j, j < idx + 1 → P ((ws.set idx w).getD j []) := by
          intro j hj
          by_cases hji : j = idx
          · subst hji
            rw [getD_set_self _ _ _ _ hidx]
            exact hP w (List.mem_cons_self _ _)
          · rw [getD_set_ne _ _ _ _ _ (fun he => hji he.symm)]
            exact hinv j (by omega)
        have := entryLoop_completed_invariant numWords P rest (idx + 1)
          (ws.set idx w) ws' (fun v hv => hP v (List.mem_cons_of_mem _ hv))
          hinv' (by rw [List.length_set]; exact hle) hcomp
        rw [List.length_set] at this
        exact this

theorem not_space_head? (l : List Char) (hl : ' ' ∉ l) : l.head? ≠ some ' ' := by
  cases l with
  | nil => simp
  | cons a t =>
    intro h
    apply hl
    have : a = ' ' := by simpa using h
    rw [← this]
    exact List.mem_cons_self _ _

theorem not_space_getLast? (l : List Char) (hl : ' ' ∉ l) : l.getLast? ≠ some ' ' := by
  intro h
  obtain ⟨hne, he⟩ := List.mem_getLast?_eq_getLast (Option.mem_def.2 h)
  exact hl (he ▸ List.getLast_mem hne)

theorem joinRest_count (maxLen : Nat) :
    ∀ l : List Word, (∀ w ∈ l, ' ' ∉ w.take maxLen) →
      (joinRest maxLen l).count ' ' = l.length
  | [], _ => rfl
  | w :: ws, h => by
    have hw := h w (List.mem_cons_self _ _)
    have ih := joinRest_count maxLen ws (fun v hv => h v (List.mem_cons_of_mem _ hv))
    simp only [joinRest, List.cons_append, List.count_cons_self, List.count_append,
      List.length_cons]
    rw [List.count_eq_zero.2 hw, ih]
    omega

theorem joinWords_count (maxLen : Nat) (l : List Word)
    (h : ∀ w ∈ l, ' ' ∉ w.take maxLen) (hne : l ≠ []) :
    (joinWords maxLen l).count ' ' = l.length - 1 := by
  match l with
  | [] => exact absurd rfl hne
  | w :: ws =>
    have hw := h w (List.mem_cons_self _ _)
    rw [joinWords, List.count_append, List.count_eq_zero.2 hw,
      joinRest_count maxLen ws (fun v hv => h v (List.mem_cons_of_mem _ hv))]
    simp

theorem joinWords_ne_nil (maxLen : Nat) (w : Word) (ws : List Word)
    (hw : w.take maxLen ≠ []) : joinWords maxLen (w :: ws) ≠ [] := by
  rw [joinWords]
  exact List.append_ne_nil_of_left_ne_nil hw _

theorem joinWords_head (maxLen : Nat) (l : List Word)
    (h : ∀ w ∈ l, ' ' ∉ w.take maxLen) (hne : ∀ w ∈ l, w.take maxLen ≠ []) :
    (joinWords maxLen l).head? ≠ some ' ' := by
  match l with
  | [] => simp [joinWords]
  | w :: ws =>
    have hw := h w (List.mem_cons_self _ _)
    have hwne := hne w (List.mem_cons_self _ _)
    rw [joinWords]
    cases htake : w.take maxLen with
    | nil => exact absurd htake hwne
    | cons c cs =>
      rw [htake] at hw
      intro hcontra
      apply hw
      have hc : c = ' ' := by simpa using hcontra
      rw [← hc]
      exact List.mem_cons_self _ _

theorem joinRest_eq_cons (maxLen : Nat) (w : Word) (ws : List Word) :
    joinRest maxLen (w :: ws) = ' ' :: joinWords maxLen (w :: ws) := by
  rw [joinRest, joinWords]
  rfl

theorem joinWords_getLast (maxLen : Nat) :
    ∀ l : List Word, (∀ w ∈ l, ' ' ∉ w.take maxLen) →
      (∀ w ∈ l, w.take maxLen ≠ []) → l ≠ [] →
      (joinWords maxLen l).getLast? ≠ some ' '
  | [], _, _, hl => absurd rfl hl
  | [w], h, _, _ => by
    rw [joinWords, joinRest, List.append_nil]
    exact not_space_getLast? _ (h w (List.mem_cons_self _ _))
  | w :: w' :: ws, h, hne, _ => by
    have ih := joinWords_getLast maxLen (w' :: ws)
      (fun v hv => h v (List.mem_cons_of_mem _ hv))
      (fun v hv => hne v (List.mem_cons_of_mem _ hv)) (by simp)
    have hJne : joinWords maxLen (w' :: ws) ≠ [] :=
      joinWords_ne_nil maxLen w' ws (hne w' (by simp))
    obtain ⟨x, hx⟩ : ∃ x, (joinWords maxLen (w' :: ws)).getLast? = some x :=
      ⟨_, List.getLast?_eq_getLast_of_ne_nil hJne⟩
    have hxs : x ≠ ' ' := fun he => ih (he ▸ hx)
    rw [joinWords, joinRest_eq_cons, List.getLast?_append,
      ← List.singleton_append, List.getLast?_append, hx]
    simpa using hxs

theorem joinRest_length (maxLen : Nat) :
    ∀ l : List Word, (joinRest maxLen l).length ≤ (maxLen + 1) * l.length
  | [] => by simp [joinRest]
  | w :: ws => by
    have ih := joinRest_length maxLen ws
    have htake : (w.take maxLen).length ≤ maxLen := by
      rw [List.length_take]
      exact Nat.min_le_left _ _
    simp only [joinRest, List.cons_append, List.length_cons, List.length_append,
      Nat.mul_succ]
    omega

theorem joinWords_length (maxLen : Nat) (l : List Word) (h24 : l.length ≤ 24) :
    (joinWords maxLen l).length ≤ (maxLen + 1) * 24 := by
  match l with
  | [] => simp [joinWords]
  | w :: ws =>
    have ih := joinRest_length maxLen ws
    have htake : (w.take maxLen).length ≤ maxLen := by
      rw [List.length_take]
      exact Nat.min_le_left _ _
    have hmul : (maxLen + 1) * (ws.length + 1) ≤ (maxLen + 1) * 24 :=
      Nat.mul_le_mul_left _ (by simpa using h24)
    rw [Nat.mul_succ] at hmul
    simp only [joinWords, List.length_append]
    omega

theorem numWordsOfChoice_bounds (c : TrinaryChoice) :
    0 < numWordsOfChoice c ∧ numWordsOfChoice c ≤ 24 := by
  cases c <;> simp [numWordsOfChoice]

/-- C4: whenever _get_mnemonic completes successfully (any of the word counts
12, 18 or 24, which are the only values numWordsOfChoice produces) and every
accepted word is nonempty and space-free, the assembled mnemonic contains
exactly WordCount - 1 space characters, no leading and no trailing space, and
its length is bounded by (max_word_length + 1) * 24, the output buffer size. -/
theorem C4_assembled_mnemonic (env : RestoreEnv) (mn : List Char)
    (hmax : 0 < env.maxWordLen)
    (hwords : ∀ w, WordInputResult.accepted w ∈ env.wordInputs → w ≠ [] ∧ ' ' ∉ w)
    (hgot : (_get_mnemonic env).1 = .got mn) :
    mn.count ' ' = numWordsOfChoice env.numWordsChoice - 1 ∧
    mn.head? ≠ some ' ' ∧
    mn.getLast? ≠ some ' ' ∧
    mn.length ≤ (env.maxWordLen + 1) * WORKFLOW_RESTORE_FROM_MNEMONIC_MAX_WORDS := by
  obtain ⟨hnw0, hnw24⟩ := numWordsOfChoice_bounds env.numWordsChoice
  by_cases hwl : wordlistGettable env = true
  · rw [_get_mnemonic, if_neg (by simp [hwl])] at hgot
    dsimp only at hgot
    cases hr : (entryLoop (numWordsOfChoice env.numWordsChoice) env.wordInputs 0
        (List.replicate WORKFLOW_RESTORE_FROM_MNEMONIC_MAX_WORDS [])).2 with
    | cancelled => rw [hr] at hgot; cases hgot
    | exhausted => rw [hr] at hgot; cases hgot
    | completed ws =>
      rw [hr] at hgot
      have hmn : mn = joinWords env.maxWordLen
          (ws.take (numWordsOfChoice env.numWordsChoice)) := by
        cases hgot
        rfl
      have hinv := entryLoop_completed_invariant (numWordsOfChoice env.numWordsChoice)
        (fun w => w ≠ [] ∧ ' ' ∉ w) env.wordInputs 0
        (List.replicate WORKFLOW_RESTORE_FROM_MNEMONIC_MAX_WORDS []) ws
        hwords (fun j hj => absurd hj (by omega))
        (by simpa [WORKFLOW_RESTORE_FROM_MNEMONIC_MAX_WORDS] using hnw24) hr
      have hlen24 : ws.length = 24 := by
        rw [hinv.2]
        simp [WORKFLOW_RESTORE_FROM_MNEMONIC_MAX_WORDS]
      have hlenl : (ws.take (numWordsOfChoice env.numWordsChoice)).length =
          numWordsOfChoice env.numWordsChoice := by
        rw [List.length_take, hlen24]
        omega
      have hmem : ∀ w ∈ ws.take (numWordsOfChoice env.numWordsChoice),
          w ≠ [] ∧ ' ' ∉ w := by
        intro w hw
        obtain ⟨j, hj, rfl⟩ := List.mem_iff_getElem.1 hw
        rw [List.getElem_take]
        have hjnw : j < numWordsOfChoice env.numWordsChoice := by
          rw [hlenl] at hj
          exact hj
        have hjws : j < ws.length := by omega
        have := hinv.1 j hjnw
        rwa [List.getD_eq_getElem _ _ hjws] at this
      have hspace : ∀ w ∈ ws.take (numWordsOfChoice env.numWordsChoice),
          ' ' ∉ w.take env.maxWordLen :=
        fun w hw hc => (hmem w hw).2 (List.take_subset _ _ hc)
      have hne : ∀ w ∈ ws.take (numWordsOfChoice env.numWordsChoice),
          w.take env.maxWordLen ≠ [] := by
        intro w hw hc
        rcases List.take_eq_nil_iff.1 hc with h0 | h0
        · omega
        · exact (hmem w hw).1 h0
      have hlne : ws.take (numWordsOfChoice env.numWordsChoice) ≠ [] := by
        intro hc
        rw [hc] at hlenl
        simp at hlenl
        omega
      subst hmn
      refine ⟨?_, joinWords_head _ _ hspace hne, joinWords_getLast _ _ hspace hne hlne, ?_⟩
      · rw [joinWords_count _ _ hspace hlne, hlenl]
      · rw [WORKFLOW_RESTORE_FROM_MNEMONIC_MAX_WORDS]
        exact joinWords_length _ _ (by omega)
  · rw [_get_mnemonic, if_pos (by simpa using hwl)] at hgot
    cases hgot

set_option maxRecDepth 8192 in
/-- Witness for C4: the 12-word sample entry produces a mnemonic with 11
spaces, no leading/trailing space, within the buffer bound. -/
theorem C4_assembled_mnemonic_witness :
    sampleMnemonic.count ' ' = numWordsOfChoice sampleRestoreEnv.numWordsChoice - 1 ∧
    sampleMnemonic.head? ≠ some ' ' ∧
    sampleMnemonic.getLast? ≠ some ' ' ∧
    sampleMnemonic.length ≤
      (sampleRestoreEnv.maxWordLen + 1) * WORKFLOW_RESTORE_FROM_MNEMONIC_MAX_WORDS :=
  C4_assembled_mnemonic sampleRestoreEnv sampleMnemonic (by decide)
    (by
      intro w hw
      have h := List.eq_of_mem_replicate hw
      injection h with h'
      subst h'
      decide)
    (by decide)

/-! ### Workflow-level lemmas for C3, C5, C6, C10 -/

theorem finalizeStage_events (env : RestoreEnv) (f : SecretFrame) (pw : Word)
    (evs : List REvent) :
    ∃ tail, (finalizeStage env f pw evs).2.2 = evs ++ tail := by
  rw [finalizeStage]
  by_cases h : env.memSetInitOk
  · rw [if_neg (by simp [h])]
    cases env.unlock pw with
    | KEYSTORE_OK => exact ⟨_, rfl⟩
    | KEYSTORE_ERR v => exact ⟨_, rfl⟩
  · rw [if_pos (by simpa using h)]
    exact ⟨_, rfl⟩

theorem u2fStage_events (env : RestoreEnv) (f : SecretFrame) (pw : Word)
    (evs : List REvent) :
    ∃ tail, (u2fStage env f pw evs).2.2 = evs ++ tail := by
  rw [u2fStage]
  by_cases h : env.appU2f
  · rw [if_pos h]
    by_cases ht : env.timeOk
    · rw [if_neg (by simp [ht])]
      obtain ⟨tail, htail⟩ := finalizeStage_events env f pw
        (evs ++ [.confirmTimeEv true, .u2fCounterEv env.u2fCounterOk])
      exact ⟨_, by rw [htail, List.append_assoc]⟩
    · rw [if_pos (by simpa using ht)]
      exact ⟨_, rfl⟩
  · rw [if_neg h]
    exact finalizeStage_events env f pw evs

theorem finalizeStage_shape (env : RestoreEnv) (f : SecretFrame) (pw : Word)
    (evs : List REvent) :
    (finalizeStage env f pw evs).2.1 = zeroizedFrame ∨
    ∃ msg, (finalizeStage env f pw evs).1 = .fatal msg := by
  rw [finalizeStage]
  by_cases hm : env.memSetInitOk
  · rw [if_neg (by simp [hm])]
    cases env.unlock pw with
    | KEYSTORE_OK => exact Or.inl rfl
    | KEYSTORE_ERR v => exact Or.inr ⟨_, rfl⟩
  · rw [if_pos (by simpa using hm)]
    exact Or.inl rfl

theorem u2fStage_shape (env : RestoreEnv) (f : SecretFrame) (pw : Word)
    (evs : List REvent) :
    (u2fStage env f pw evs).2.1 = zeroizedFrame ∨
    ∃ msg, (u2fStage env f pw evs).1 = .fatal msg := by
  rw [u2fStage]
  by_cases ha : env.appU2f
  · rw [if_pos ha]
    by_cases ht : env.timeOk
    · rw [if_neg (by simp [ht])]
      exact finalizeStage_shape env f pw _
    · rw [if_pos (by simpa using ht)]
      exact Or.inl rfl
  · rw [if_neg ha]
    exact finalizeStage_shape env f pw _

theorem workflow_frame_shape (env : RestoreEnv) :
    (workflow_restore_from_mnemonic env).2.1 = zeroizedFrame ∨
    (workflow_restore_from_mnemonic env).1 = .outOfScript ∨
    ∃ msg, (workflow_restore_from_mnemonic env).1 = .fatal msg := by
  rw [workflow_restore_from_mnemonic]
  cases (_get_mnemonic env).1 with
  | outOfInputs => exact Or.inr (Or.inl rfl)
  | failed => exact Or.inl rfl
  | got mnemonic =>
    dsimp only
    cases env.mnemonicToSeed mnemonic with
    | none => exact Or.inl rfl
    | some sb =>
      dsimp only
      cases passwordRetryLoop env.passwordOutcomes env.retryAgain with
      | outOfScriptPw => exact Or.inr (Or.inl rfl)
      | abandoned => exact Or.inl rfl
      | gotten pw =>
        dsimp only
        by_cases hst : env.encryptStore sb pw
        · rw [if_neg (by simp [hst])]
          rcases u2fStage_shape env ⟨mnemonic, writeBytes env.seed0 sb, pw⟩ pw
            ([REvent.status "Recovery words\nvalid" true] ++
              [REvent.storeSeed sb pw true]) with hz | hf
          · exact Or.inl hz
          · exact Or.inr (Or.inr hf)
        · rw [if_pos (by simpa using hst)]
          exact Or.inl rfl

theorem finalizeStage_fst (env₁ env₂ : RestoreEnv) (f₁ f₂ : SecretFrame)
    (pw : Word) (evs₁ evs₂ : List REvent)
    (hm : env₁.memSetInitOk = env₂.memSetInitOk)
    (hu : env₁.unlock = env₂.unlock) :
    (finalizeStage env₁ f₁ pw evs₁).1 = (finalizeStage env₂ f₂ pw evs₂).1 := by
  rw [finalizeStage, finalizeStage, hm, hu]
  by_cases h : env₂.memSetInitOk
  · rw [if_neg (by simp [h]), if_neg (by simp [h])]
    cases env₂.unlock pw with
    | KEYSTORE_OK => rfl
    | KEYSTORE_ERR v => rfl
  · rw [if_pos (by simpa using h), if_pos (by simpa using h)]

theorem workflow_after_store (env : RestoreEnv) (mn : List Char)
    (sb : List Nat) (pw : Word)
    (hg : (_get_mnemonic env).1 = .got mn)
    (hseed : env.mnemonicToSeed mn = some sb)
    (hpw : passwordRetryLoop env.passwordOutcomes env.retryAgain = .gotten pw)
    (hstore : env.encryptStore sb pw = true) :
    workflow_restore_from_mnemonic env =
      u2fStage env ⟨mn, writeBytes env.seed0 sb, pw⟩ pw
        [.status "Recovery words\nvalid" true, .storeSeed sb pw true] := by
  rw [workflow_restore_from_mnemonic, hg]
  dsimp only
  rw [hseed]
  dsimp only
  rw [hpw]
  dsimp only
  rw [hstore]
  simp

theorem workflow_pw_abandoned (env : RestoreEnv) (mn : List Char)
    (sb : List Nat)
    (hg : (_get_mnemonic env).1 = .got mn)
    (hseed : env.mnemonicToSeed mn = some sb)
    (hpw : passwordRetryLoop env.passwordOutcomes env.retryAgain = .abandoned) :
    workflow_restore_from_mnemonic env =
      (.finished false, zeroizedFrame, [.status "Recovery words\nvalid" true]) := by
  rw [workflow_restore_from_mnemonic, hg]
  dsimp only
  rw [hseed]
  dsimp only
  rw [hpw]
  rfl

/-! ### C3: zeroization of the secret buffers -/

/-- C3: on every ordinary return of workflow_restore_from_mnemonic — success
or failure, at any stage — the mnemonic, seed and password buffers are
zeroed; in particular a Cancel during word entry yields a failure return with
an empty mnemonic buffer. (An Abort halts the process and never returns.) -/
theorem C3_secrets_zeroized_on_return :
    (∀ (env : RestoreEnv) (b : Bool),
      (workflow_restore_from_mnemonic env).1 = .finished b →
      (workflow_restore_from_mnemonic env).2.1 = zeroizedFrame) ∧
    (∀ env : RestoreEnv, (_get_mnemonic env).1 = .failed →
      (workflow_restore_from_mnemonic env).1 = .finished false ∧
      (workflow_restore_from_mnemonic env).2.1.mnemonic = []) := by
  have hmain : ∀ (env : RestoreEnv) (b : Bool),
      (workflow_restore_from_mnemonic env).1 = .finished b →
      (workflow_restore_from_mnemonic env).2.1 = zeroizedFrame := by
    intro env b h
    rcases workflow_frame_shape env with hz | hout | ⟨msg, hf⟩
    · exact hz
    · rw [h] at hout
      cases hout
    · rw [h] at hf
      cases hf
  refine ⟨hmain, ?_⟩
  intro env hfail
  rw [workflow_restore_from_mnemonic, hfail]
  exact ⟨rfl, rfl⟩

set_option maxRecDepth 8192 in
/-- Witness for C3: the fully successful sample run returns with all three
secret buffers zeroized. -/
theorem C3_secrets_zeroized_on_return_witness :
    (workflow_restore_from_mnemonic sampleRestoreEnv).2.1 = zeroizedFrame :=
  C3_secrets_zeroized_on_return.1 sampleRestoreEnv true (by decide)

/-! ### C5: the password retry loop -/

theorem passwordRetryLoop_decline :
    ∀ (k : Nat) (atts : List (Option Word)) (bs : List Bool),
      passwordRetryLoop (List.replicate (k + 1) none ++ atts)
        (List.replicate k true ++ false :: bs) = .abandoned
  | 0, atts, bs => by
    simp [List.replicate_succ, passwordRetryLoop]
  | k + 1, atts, bs => by
    have ih := passwordRetryLoop_decline k atts bs
    simp only [List.replicate_succ, List.cons_append, passwordRetryLoop, if_true]
    exact ih

/-- C5: a password mismatch presents the binary retry choice; declining it —
at the first prompt or after any number k of accepted retries — makes the
whole workflow return failure with no store ever attempted; accepting repeats
the prompt, with no bound other than the user declining (k mismatches with k
accepted retries then a match still succeed, for every k); and as soon as one
prompt succeeds the workflow proceeds to persisting the seed. -/
theorem C5_password_retry (env : RestoreEnv) (mn : List Char) (sb : List Nat)
    (hg : (_get_mnemonic env).1 = .got mn)
    (hseed : env.mnemonicToSeed mn = some sb) :
    (∀ (k : Nat) (atts : List (Option Word)) (bs : List Bool),
      env.passwordOutcomes = List.replicate (k + 1) none ++ atts →
      env.retryAgain = List.replicate k true ++ false :: bs →
      (workflow_restore_from_mnemonic env).1 = .finished false ∧
      ∀ s pw ok, REvent.storeSeed s pw ok ∉ (workflow_restore_from_mnemonic env).2.2) ∧
    (∀ (k : Nat) (pw : Word) (atts : List (Option Word)) (bs : List Bool),
      passwordRetryLoop (List.replicate k none ++ some pw :: atts)
        (List.replicate k true ++ bs) = .gotten pw) ∧
    (∀ pw, passwordRetryLoop env.passwordOutcomes env.retryAgain = .gotten pw →
      ∃ ok, REvent.storeSeed sb pw ok ∈ (workflow_restore_from_mnemonic env).2.2) := by
  refine ⟨?_, ?_, ?_⟩
  · intro k atts bs hatts hbs
    have hpw : passwordRetryLoop env.passwordOutcomes env.retryAgain = .abandoned := by
      rw [hatts, hbs]
      exact passwordRetryLoop_decline k atts bs
    rw [workflow_pw_abandoned env mn sb hg hseed hpw]
    exact ⟨rfl, by intro s pw ok h; simp at h⟩
  · intro k
    induction k with
    | zero => intro pw atts bs; rfl
    | succ n ih =>
      intro pw atts bs
      simp only [List.replicate_succ, List.cons_append, passwordRetryLoop, if_true]
      exact ih pw atts bs
  · intro pw hpw
    by_cases hst : env.encryptStore sb pw
    · rw [workflow_after_store env mn sb pw hg hseed hpw hst]
      obtain ⟨tail, htail⟩ := u2fStage_events env
        ⟨mn, writeBytes env.seed0 sb, pw⟩ pw
        [.status "Recovery words\nvalid" true, .storeSeed sb pw true]
      refine ⟨true, ?_⟩
      rw [htail]
      exact List.mem_append_left _ (by simp)
    · refine ⟨false, ?_⟩
      rw [workflow_restore_from_mnemonic, hg]
      dsimp only
      rw [hseed]
      dsimp only
      rw [hpw]
      dsimp only
      rw [if_pos (by simpa using hst)]
      simp

set_option maxRecDepth 8192 in
/-- Witness for C5: a mismatch with an accepted retry followed by a second
mismatch with a declined retry (k = 1) makes the workflow fail, and one
mismatch with an accepted retry followed by a match reaches seed
persistence. -/
theorem C5_password_retry_witness :
    (workflow_restore_from_mnemonic pwDeclineRestoreEnv).1 = .finished false ∧
    ∃ ok, REvent.storeSeed [1, 2, 3] ['p'] ok ∈
      (workflow_restore_from_mnemonic retryRestoreEnv).2.2 :=
  ⟨((C5_password_retry pwDeclineRestoreEnv sampleMnemonic [1, 2, 3] (by decide) rfl).1
      1 [] [] (by decide) (by decide)).1,
   (C5_password_retry retryRestoreEnv sampleMnemonic [1, 2, 3] (by decide) rfl).2.2
      ['p'] (by decide)⟩

/-! ### C6: unlock failure after a successful store is fatal -/

/-- C6: once the seed is stored and the device marked initialized, the
workflow result is fully determined by keystore_unlock: KEYSTORE_OK gives
success and anything else is an Abort (fatal), never an ordinary failure
return. -/
theorem C6_unlock_fatal (env : RestoreEnv) (mn : List Char) (sb : List Nat)
    (pw : Word)
    (hg : (_get_mnemonic env).1 = .got mn)
    (hseed : env.mnemonicToSeed mn = some sb)
    (hpw : passwordRetryLoop env.passwordOutcomes env.retryAgain = .gotten pw)
    (hstore : env.encryptStore sb pw = true)
    (htime : env.appU2f = true → env.timeOk = true)
    (hinit : env.memSetInitOk = true) :
    ((workflow_restore_from_mnemonic env).1 =
      match env.unlock pw with
      | .KEYSTORE_OK => .finished true
      | .KEYSTORE_ERR _ => .fatal "workflow_restore_from_mnemonic: unlock failed") ∧
    (env.unlock pw ≠ .KEYSTORE_OK →
      (workflow_restore_from_mnemonic env).1 =
        .fatal "workflow_restore_from_mnemonic: unlock failed") ∧
    (workflow_restore_from_mnemonic env).1 ≠ .finished false := by
  have hfin : ∀ evs : List REvent,
      (finalizeStage env ⟨mn, writeBytes env.seed0 sb, pw⟩ pw evs).1 =
        match env.unlock pw with
        | .KEYSTORE_OK => .finished true
        | .KEYSTORE_ERR _ => .fatal "workflow_restore_from_mnemonic: unlock failed" := by
    intro evs
    rw [finalizeStage, if_neg (by simp [hinit])]
    cases env.unlock pw with
    | KEYSTORE_OK => rfl
    | KEYSTORE_ERR v => rfl
  have hmain : (workflow_restore_from_mnemonic env).1 =
      match env.unlock pw with
      | .KEYSTORE_OK => .finished true
      | .KEYSTORE_ERR _ => .fatal "workflow_restore_from_mnemonic: unlock failed" := by
    rw [workflow_after_store env mn sb pw hg hseed hpw hstore, u2fStage]
    by_cases ha : env.appU2f
    · rw [if_pos ha, if_neg (by simp [htime ha])]
      exact hfin _
    · rw [if_neg ha]
      exact hfin _
  refine ⟨hmain, ?_, ?_⟩
  · intro hne
    rw [hmain]
    cases hu : env.unlock pw with
    | KEYSTORE_OK => exact absurd hu hne
    | KEYSTORE_ERR v => rfl
  · rw [hmain]
    cases env.unlock pw with
    | KEYSTORE_OK => simp
    | KEYSTORE_ERR v => simp

set_option maxRecDepth 8192 in
/-- Witness for C6: with a failing keystore_unlock after a successful store
and mark-initialized, the workflow hits the Abort. -/
theorem C6_unlock_fatal_witness :
    (workflow_restore_from_mnemonic badUnlockRestoreEnv).1 =
      .fatal "workflow_restore_from_mnemonic: unlock failed" :=
  (C6_unlock_fatal badUnlockRestoreEnv sampleMnemonic [1, 2, 3] ['p']
      (by decide) rfl rfl rfl (by decide) rfl).2.1 (by decide)

/-! ### C10: declined timestamp confirmation under APP_U2F -/

/-- C10: under APP_U2F, declining the timestamp confirmation makes the
workflow return ordinary failure after the seed was stored (the store event
is in the trace and not rolled back) but before the device is marked
initialized (no mark-initialized event); by contrast a security-counter
failure never affects the result. -/
theorem C10_u2f_time_decline (env : RestoreEnv) (mn : List Char)
    (sb : List Nat) (pw : Word)
    (hg : (_get_mnemonic env).1 = .got mn)
    (hseed : env.mnemonicToSeed mn = some sb)
    (hpw : passwordRetryLoop env.passwordOutcomes env.retryAgain = .gotten pw)
    (hstore : env.encryptStore sb pw = true)
    (hu2f : env.appU2f = true)
    (htime : env.timeOk = false) :
    (workflow_restore_from_mnemonic env).1 = .finished false ∧
    REvent.storeSeed sb pw true ∈ (workflow_restore_from_mnemonic env).2.2 ∧
    (∀ b : Bool, REvent.memSetInitEv b ∉ (workflow_restore_from_mnemonic env).2.2) ∧
    (∀ b : Bool,
      (workflow_restore_from_mnemonic
        { env with timeOk := true, u2fCounterOk := b }).1 =
      (workflow_restore_from_mnemonic
        { env with timeOk := true, u2fCounterOk := true }).1) := by
  have hwf : workflow_restore_from_mnemonic env =
      (.finished false, zeroizedFrame,
        [.status "Recovery words\nvalid" true, .storeSeed sb pw true,
          .confirmTimeEv false]) := by
    rw [workflow_after_store env mn sb pw hg hseed hpw hstore, u2fStage,
      if_pos hu2f, if_pos (by simp [htime])]
    rfl
  refine ⟨by rw [hwf], by rw [hwf]; simp, by intro b h; rw [hwf] at h; simp at h, ?_⟩
  intro b
  have hg' : ∀ c : Bool,
      (_get_mnemonic { env with timeOk := true, u2fCounterOk := c }).1 = .got mn := fun _ => hg
  have hpw' : ∀ c : Bool,
      passwordRetryLoop ({ env with timeOk := true, u2fCounterOk := c } :
        RestoreEnv).passwordOutcomes
        ({ env with timeOk := true, u2fCounterOk := c } : RestoreEnv).retryAgain =
        .gotten pw := fun _ => hpw
  rw [workflow_after_store { env with timeOk := true, u2fCounterOk := b } mn sb pw
      (hg' b) hseed (hpw' b) hstore,
    workflow_after_store { env with timeOk := true, u2fCounterOk := true } mn sb pw
      (hg' true) hseed (hpw' true) hstore,
    u2fStage, u2fStage]
  rw [if_pos (show ({ env with timeOk := true, u2fCounterOk := b } :
      RestoreEnv).appU2f = true from hu2f)]
  rw [if_pos (show ({ env with timeOk := true, u2fCounterOk := true } :
      RestoreEnv).appU2f = true from hu2f)]
  rw [if_neg (fun hn => hn rfl)]
  rw [if_neg (fun hn => hn rfl)]
  exact finalizeStage_fst _ _ _ _ pw _ _ rfl rfl

set_option maxRecDepth 8192 in
/-- Witness for C10: declining the timestamp confirmation under APP_U2F
yields ordinary failure with the seed already stored. -/
theorem C10_u2f_time_decline_witness :
    (workflow_restore_from_mnemonic u2fDeclineRestoreEnv).1 = .finished false ∧
    REvent.storeSeed [1, 2, 3] ['p'] true ∈
      (workflow_restore_from_mnemonic u2fDeclineRestoreEnv).2.2 :=
  have h := C10_u2f_time_decline u2fDeclineRestoreEnv sampleMnemonic [1, 2, 3] ['p']
    (by decide) rfl rfl rfl rfl rfl
  ⟨h.1, h.2.1⟩

end BitBox
